import Mathlib

/-!
# Verification of the static file server (src/main.py)

The program is a fifteen-line Python static file server:

* `MyHttpRequestHandler.do_GET` (lines 4-7) overrides the GET handler and
  delegates verbatim to `http.server.SimpleHTTPRequestHandler.do_GET`;
* `run_server` (lines 9-12) binds a `socketserver.TCPServer` on
  `("", port)` with `port = 8000` by default, prints one line
  `Serving at port {port}`, and calls `serve_forever()`;
* the `__main__` guard (lines 14-15) calls `run_server()` with no
  arguments.

The request-handling behaviour itself lives in the standard library
(`SimpleHTTPRequestHandler`), which the specification treats as an
external collaborator; those parts are modelled here from the spec's
description of them (path resolution under the serving root, MIME
inference from the extension, 200 with file bytes / 404 with a simple
error body).  The repository's own code — the pass-through override, the
bootstrap and the `__main__` guard — is embedded directly from
`src/main.py`.
-/

/-- An HTTP request as the data model describes it: a method and a URL
path (headers play no role in any claim). -/
structure HttpRequest where
  method : String
  path : String
deriving DecidableEq

/-- An HTTP response: status code, inferred content type and a byte
body. -/
structure HttpResponse where
  status : Nat
  contentType : String
  body : List Nat
deriving DecidableEq

/-- The filesystem tree under the serving root: a finite association of
paths (component lists, relative to the filesystem root) to file
contents (bytes).  Entries are the existing readable regular files. -/
abbrev FileSystem : Type := List (List String × List Nat)

/-- Look a path up in the filesystem. -/
def FileSystem.lookup (fs : FileSystem) (p : List String) : Option (List Nat) :=
  (List.find? (fun e => e.1 = p) fs).map (fun e => e.2)

/-- Split a character list at every occurrence of `sep`: the splitting
underlying Python's `path.split(sep)`.  Always returns at least one
(possibly empty) piece. -/
def splitOnChar (sep : Char) : List Char → List (List Char)
  | [] => [[]]
  | c :: rest =>
      if c = sep then [] :: splitOnChar sep rest
      else
        match splitOnChar sep rest with
        | [] => [[c]]
        | w :: ws => (c :: w) :: ws

/-- One step of `posixpath.normpath` over components of an absolute
path: empty components and `.` are dropped, `..` removes the preceding
component (and is dropped at the root, as for an absolute path). -/
def normpathStep (acc : List String) (c : String) : List String :=
  if c = "" ∨ c = "." then acc
  else if c = ".." then acc.dropLast
  else acc ++ [c]

/-- Modelled from the spec: `posixpath.normpath` on an absolute path,
acting on the already-split components.
`SimpleHTTPRequestHandler.translate_path` applies this normalisation;
its code is in the standard library, not in this repository. -/
def normpathComps (comps : List String) : List String :=
  comps.foldl normpathStep []

/-- Abandon the query (`?...`) and fragment (`#...`) of a URL path, as
`translate_path` does with `path.split('?',1)[0]` and
`path.split('#',1)[0]`. -/
def stripQueryFrag (s : List Char) : List Char :=
  (s.takeWhile (fun c => c ≠ '?')).takeWhile (fun c => c ≠ '#')

/-- The URL path split into `/`-separated components, query and
fragment removed. -/
def pathWords (urlPath : String) : List String :=
  (splitOnChar '/' (stripQueryFrag urlPath.toList)).map List.asString

/-- Modelled from the spec: `SimpleHTTPRequestHandler.translate_path`
(standard library, not in this repository).  It abandons the query and
fragment, normalises the path, drops any remaining component that is
`.`/`..` or contains a separator, and joins the survivors under the
serving root.  (Percent-decoding, which the real code performs before
normalising, is not modelled: the spec never mentions encoded paths.) -/
def translate_path (root : List String) (urlPath : String) : List String :=
  root ++ (normpathComps (pathWords urlPath)).filter
    (fun w => !(w.toList.contains '/' || w = "." || w = ".."))

/-- Modelled from the spec: MIME inference from the file extension
(`SimpleHTTPRequestHandler.guess_type`, standard library).  The spec's
table: `.html` is HTML, `.json` is JSON, a generic default otherwise;
`.txt` is included for the spec's end-to-end scenario. -/
def guess_type (filename : String) : String :=
  match (splitOnChar '.' filename.toList).reverse with
  | ext :: _ :: _ =>
      if List.asString ext = "html" then "text/html"
      else if List.asString ext = "json" then "application/json"
      else if List.asString ext = "txt" then "text/plain"
      else "application/octet-stream"
  | _ => "application/octet-stream"

/-- The simple error body of a 404 response (modelled from the spec:
"respond 404 with a simple error body"). -/
def error404Body : List Nat :=
  (String.toList "File not found").map Char.toNat

/-- Modelled from the spec: `SimpleHTTPRequestHandler.do_GET` (standard
library, not in this repository).  It resolves the URL path under the
serving root; an existing readable regular file is served with status
200, a content type inferred from its extension and its bytes as body;
a path resolving to no file gets a 404 with a simple error body. -/
def SimpleHTTPRequestHandler.do_GET (root : List String) (fs : FileSystem)
    (req : HttpRequest) : HttpResponse :=
  match fs.lookup (translate_path root req.path) with
  | some contents =>
      { status := 200,
        contentType := guess_type ((translate_path root req.path).getLastD ""),
        body := contents }
  | none =>
      { status := 404, contentType := "text/html", body := error404Body }

/-- Embeds `MyHttpRequestHandler.do_GET` (src/main.py lines 4-7): the
override returns `http.server.SimpleHTTPRequestHandler.do_GET(self)`
unchanged. -/
def MyHttpRequestHandler.do_GET (root : List String) (fs : FileSystem)
    (req : HttpRequest) : HttpResponse :=
  SimpleHTTPRequestHandler.do_GET root fs req

/-- Whether the operating system lets the process bind the requested
address — the environment input that decides startup (e.g. `err` when
the port is already in use, in which case `TCPServer` raises `OSError`
with that message). -/
inductive BindOutcome where
  | ok : BindOutcome
  | err (msg : String) : BindOutcome
deriving DecidableEq

/-- The observable events of the bootstrap, in program order. -/
inductive Event where
  | bindAttempt (addr : String × Nat) : Event
  | printLine (s : String) : Event
  | serveForever : Event
  | raiseExc (msg : String) : Event
deriving DecidableEq

/-- Embeds `run_server` (src/main.py lines 9-12) as its event trace, in
statement order: constructing `socketserver.TCPServer(("", port),
MyHttpRequestHandler)` attempts the bind; on failure the `OSError`
propagates out of `run_server` (there is no handler); on success the
body of the `with` prints `Serving at port {port}` and calls
`server.serve_forever()`.  The default port is the code-level `8000`. -/
def run_server (bind : BindOutcome) (port : Nat := 8000) : List Event :=
  match bind with
  | .err m => [.bindAttempt ("", port), .raiseExc m]
  | .ok => [.bindAttempt ("", port),
            .printLine ("Serving at port " ++ toString port),
            .serveForever]

/-- Embeds the `__main__` guard (src/main.py lines 14-15): the program
calls `run_server()` with no arguments — there is no flag parsing, so
nothing can supply a port other than the default. -/
def mainTrace (bind : BindOutcome) : List Event :=
  run_server bind

/-- The lines the trace writes to standard output. -/
def stdoutOf (tr : List Event) : List String :=
  tr.filterMap (fun e => match e with | .printLine s => some s | _ => none)

/-- How the process ends, as seen from the outside. -/
inductive ProcessOutcome where
  | serving : ProcessOutcome
  | exited (status : Nat) (stderr : String) : ProcessOutcome
deriving DecidableEq

/-- Modelled from the spec: the Python top level.  An exception that
propagates uncaught out of the program makes the interpreter print a
traceback (the diagnostic) to stderr and exit with status 1; otherwise
the trace ends in `serve_forever` and the process keeps serving. -/
def processOutcome (tr : List Event) : ProcessOutcome :=
  match tr.filterMap (fun e => match e with | .raiseExc m => some m | _ => none) with
  | m :: _ =>
      .exited 1 ("Traceback (most recent call last): OSError: " ++ m)
  | [] => .serving

/-- The whole program, from process start to its outcome. -/
def pythonMain (bind : BindOutcome) : ProcessOutcome :=
  processOutcome (mainTrace bind)

/-- The two states of the spec's server state machine. -/
inductive ServerState where
  | LISTENING : ServerState
  | STOPPED : ServerState
deriving DecidableEq

/-- The events that can reach a server blocked in `serve_forever`. -/
inductive ServerEvent where
  | handleRequest (r : HttpRequest) : ServerEvent
  | processKill : ServerEvent
  | fatalListenerError : ServerEvent
deriving DecidableEq

/-- Modelled from the spec: `serve_forever` semantics of the standard
library's `TCPServer`.  The program never calls `shutdown`, so handling
a request returns the server to `LISTENING`; only process termination or
a fatal listener error leaves that state. -/
def serverStep (s : ServerState) (e : ServerEvent) : ServerState :=
  match s, e with
  | .LISTENING, .handleRequest _ => .LISTENING
  | .LISTENING, .processKill => .STOPPED
  | .LISTENING, .fatalListenerError => .STOPPED
  | .STOPPED, _ => .STOPPED

/-- A side effect handling one request can perform. -/
inductive Effect where
  | fsRead (p : List String) : Effect
  | sockWrite (data : List Nat) : Effect
  | fsWrite (p : List String) (data : List Nat) : Effect
deriving DecidableEq

/-- Modelled from the spec: the effect trace of one GET request in
`SimpleHTTPRequestHandler` — it opens the resolved file for reading and
copies it to the connected socket, or writes the error response to the
socket; it never opens anything for writing. -/
def do_GET_effects (root : List String) (fs : FileSystem)
    (req : HttpRequest) : List Effect :=
  match fs.lookup (translate_path root req.path) with
  | some contents =>
      [.fsRead (translate_path root req.path), .sockWrite contents]
  | none => [.sockWrite error404Body]

/-- Apply one effect to the filesystem: only a write changes it. -/
def applyEffect (fs : FileSystem) (e : Effect) : FileSystem :=
  match e with
  | .fsWrite p data => (p, data) :: fs
  | _ => fs

/-! ## Theorems -/

/-- C1: the overridden `do_GET` of `MyHttpRequestHandler` behaves
identically to the base `SimpleHTTPRequestHandler.do_GET` on every GET
request — the override is a no-op pass-through. -/
theorem C1_do_GET_passthrough (root : List String) (fs : FileSystem)
    (req : HttpRequest) :
    MyHttpRequestHandler.do_GET root fs req =
      SimpleHTTPRequestHandler.do_GET root fs req :=
  rfl

/-- C5: when the listener cannot bind, the process terminates with the
non-zero exit status 1 and a diagnostic mentioning the OS error; it
never stays serving, and the only bind it ever attempted was on the
requested port. -/
theorem C5_bind_failure_fatal (m : String) :
    pythonMain (BindOutcome.err m) =
        ProcessOutcome.exited 1
          ("Traceback (most recent call last): OSError: " ++ m) ∧
      pythonMain (BindOutcome.err m) ≠ ProcessOutcome.serving ∧
      (∀ a, Event.bindAttempt a ∈ mainTrace (BindOutcome.err m) → a = ("", 8000)) := by
  refine ⟨rfl, by simp [pythonMain, mainTrace, run_server, processOutcome], ?_⟩
  intro a ha
  simp [mainTrace, run_server] at ha
  exact ha

/-- C6: run with no arguments, the program attempts exactly one bind,
on the address `("", 8000)` — the code-level default port — and
`mainTrace` takes no port parameter at all, reflecting the absence of
any flag parsing. -/
theorem C6_default_port (bind : BindOutcome) :
    (mainTrace bind).head? = some (Event.bindAttempt ("", 8000)) ∧
      (∀ a, Event.bindAttempt a ∈ mainTrace bind → a = ("", 8000)) := by
  cases bind <;>
    exact ⟨rfl, by intro a ha; simpa [mainTrace, run_server] using ha⟩

/-- C7: after a successful bind the server is in `LISTENING`, and any
run consisting only of handled requests leaves it in `LISTENING` — the
accept loop never terminates under normal operation; the only
transitions out of `LISTENING` are process termination and a fatal
listener error. -/
theorem C7_serve_forever (evs : List ServerEvent)
    (h : ∀ e ∈ evs, ∃ r, e = ServerEvent.handleRequest r) :
    evs.foldl serverStep ServerState.LISTENING = ServerState.LISTENING ∧
      (∀ e, serverStep ServerState.LISTENING e = ServerState.STOPPED →
        e = ServerEvent.processKill ∨ e = ServerEvent.fatalListenerError) := by
  constructor
  · induction evs with
    | nil => rfl
    | cons e tl ih =>
        obtain ⟨r, rfl⟩ := h e (List.mem_cons_self e tl)
        exact ih (fun e' he' => h e' (List.mem_cons_of_mem _ he'))
  · intro e he
    cases e with
    | handleRequest r => exact absurd he (by simp [serverStep])
    | processKill => exact Or.inl rfl
    | fatalListenerError => exact Or.inr rfl

/-- Witness for C7 at a concrete run of two handled requests. -/
theorem C7_serve_forever_witness :
    [ServerEvent.handleRequest ⟨"GET", "/hello.txt"⟩,
     ServerEvent.handleRequest ⟨"GET", "/a/b"⟩].foldl serverStep
        ServerState.LISTENING = ServerState.LISTENING ∧
      (∀ e, serverStep ServerState.LISTENING e = ServerState.STOPPED →
        e = ServerEvent.processKill ∨ e = ServerEvent.fatalListenerError) :=
  C7_serve_forever
    [ServerEvent.handleRequest ⟨"GET", "/hello.txt"⟩,
     ServerEvent.handleRequest ⟨"GET", "/a/b"⟩]
    (by
      intro e he
      simp only [List.mem_cons, List.not_mem_nil, or_false] at he
      rcases he with rfl | rfl
      · exact ⟨⟨"GET", "/hello.txt"⟩, rfl⟩
      · exact ⟨⟨"GET", "/a/b"⟩, rfl⟩)

/-- C8: on every successful startup the run writes exactly one line to
standard output, the line announcing the listening port, and that line
contains the port number. -/
theorem C8_one_startup_line (port : Nat) :
    stdoutOf (run_server BindOutcome.ok port) =
        ["Serving at port " ++ toString port] ∧
      (stdoutOf (run_server BindOutcome.ok port)).length = 1 := by
  exact ⟨rfl, rfl⟩

/-- C10: when the bind fails, nothing at all is written to standard
output — in particular no "Serving at port" line is ever emitted on a
failed startup. -/
theorem C10_no_line_on_failed_bind (m : String) (port : Nat) :
    stdoutOf (run_server (BindOutcome.err m) port) = [] :=
  rfl

/-- Unfolding the effect trace on the result of path resolution. -/
theorem do_GET_effects_eq (root : List String) (fs : FileSystem)
    (req : HttpRequest) :
    do_GET_effects root fs req =
      match fs.lookup (translate_path root req.path) with
      | some contents =>
          [Effect.fsRead (translate_path root req.path),
           Effect.sockWrite contents]
      | none => [Effect.sockWrite error404Body] :=
  rfl

/-- C9: handling a GET request performs only filesystem reads and
socket writes — no effect in its trace is a filesystem write — and
replaying the trace against the filesystem leaves the tree unchanged. -/
theorem C9_no_fs_mutation (root : List String) (fs : FileSystem)
    (req : HttpRequest) :
    (do_GET_effects root fs req).foldl applyEffect fs = fs ∧
      ∀ e ∈ do_GET_effects root fs req,
        (∃ p, e = Effect.fsRead p) ∨ (∃ d, e = Effect.sockWrite d) := by
  rw [do_GET_effects_eq]
  cases h : fs.lookup (translate_path root req.path) with
  | some contents =>
      refine ⟨rfl, ?_⟩
      intro e he
      simp only [List.mem_cons, List.not_mem_nil, or_false] at he
      rcases he with rfl | rfl
      · exact Or.inl ⟨_, rfl⟩
      · exact Or.inr ⟨_, rfl⟩
  | none =>
      refine ⟨rfl, ?_⟩
      intro e he
      simp only [List.mem_cons, List.not_mem_nil, or_false] at he
      subst he
      exact Or.inr ⟨_, rfl⟩

/-- Folding `normpathStep` over clean components (no empty, `.` or `..`
component) appends them to the accumulator unchanged. -/
theorem normpath_foldl_clean (comps : List String) (acc : List String)
    (h : ∀ w ∈ comps, w ≠ "" ∧ w ≠ "." ∧ w ≠ "..") :
    comps.foldl normpathStep acc = acc ++ comps := by
  induction comps generalizing acc with
  | nil => simp
  | cons c tl ih =>
      obtain ⟨h1, h2, h3⟩ := h c (List.mem_cons_self c tl)
      simp only [List.foldl_cons]
      rw [show normpathStep acc c = acc ++ [c] by
            unfold normpathStep
            rw [if_neg (fun hor => hor.elim h1 h2), if_neg h3]]
      rw [ih (acc ++ [c]) (fun w hw => h w (List.mem_cons_of_mem _ hw))]
      simp

/-- The last component of a path under a root is the last component of
the relative part. -/
theorem getLastD_append (l l' : List String) (h : l' ≠ []) (d : String) :
    (l ++ l').getLastD d = l'.getLastD d := by
  cases l' with
  | nil => exact absurd rfl h
  | cons a tl =>
      simp [List.getLastD_eq_getLast?, List.getLast?_append, List.getLast?_cons]

/-- C2: a GET request whose URL path is `/`-joined from the clean
relative path `rel` of an existing readable file under the serving root
(no query, no fragment, no empty/`.`/`..` component) is answered with
status 200, a content type inferred from the file's extension, and a
body byte-identical to the file's contents. -/
theorem C2_get_existing_file (root rel : List String) (fs : FileSystem)
    (contents : List Nat) (req : HttpRequest)
    (hq : '?' ∉ req.path.toList)
    (hh : '#' ∉ req.path.toList)
    (hsplit : (splitOnChar '/' req.path.toList).map List.asString = "" :: rel)
    (hne : rel ≠ [])
    (hclean : ∀ w ∈ rel,
      w ≠ "" ∧ w ≠ "." ∧ w ≠ ".." ∧ w.toList.contains '/' = false)
    (hfile : FileSystem.lookup fs (root ++ rel) = some contents) :
    MyHttpRequestHandler.do_GET root fs req =
      { status := 200, contentType := guess_type (rel.getLastD ""),
        body := contents } := by
  have hq' : req.path.toList.takeWhile (fun c => c ≠ '?') = req.path.toList :=
    List.takeWhile_eq_self_iff.mpr (fun c hc => by
      simp only [decide_eq_true_eq]
      intro hcq
      exact hq (hcq ▸ hc))
  have hh' : req.path.toList.takeWhile (fun c => c ≠ '#') = req.path.toList :=
    List.takeWhile_eq_self_iff.mpr (fun c hc => by
      simp only [decide_eq_true_eq]
      intro hch
      exact hh (hch ▸ hc))
  have hwords : pathWords req.path = "" :: rel := by
    unfold pathWords stripQueryFrag
    rw [hq', hh', hsplit]
  have hnorm : normpathComps ("" :: rel) = rel := by
    unfold normpathComps
    rw [List.foldl_cons,
        show normpathStep [] "" = [] by unfold normpathStep; simp,
        normpath_foldl_clean rel []
          (fun w hw => ⟨(hclean w hw).1, (hclean w hw).2.1, (hclean w hw).2.2.1⟩)]
    simp
  have hfilter :
      rel.filter (fun w => !(w.toList.contains '/' || w = "." || w = "..")) = rel :=
    List.filter_eq_self.mpr (fun w hw => by
      obtain ⟨-, h2, h3, h4⟩ := hclean w hw
      have h4' : '/' ∉ w.data := by simpa using h4
      simp [h2, h3, h4'])
  have htp : translate_path root req.path = root ++ rel := by
    unfold translate_path
    rw [hwords, hnorm, hfilter]
  unfold MyHttpRequestHandler.do_GET SimpleHTTPRequestHandler.do_GET
  rw [htp, hfile, getLastD_append root rel hne]

/-- Witness for C2: serving root at the filesystem root containing
`hello.txt` with bytes "hi"; `GET /hello.txt` answers 200 with those
bytes (the spec's end-to-end scenario). -/
theorem C2_get_existing_file_witness :
    FileSystem.lookup [(["hello.txt"], [104, 105])] ([] ++ ["hello.txt"]) =
        some [104, 105] ∧
      MyHttpRequestHandler.do_GET [] [(["hello.txt"], [104, 105])]
          ⟨"GET", "/hello.txt"⟩ =
        { status := 200, contentType := guess_type (["hello.txt"].getLastD ""),
          body := [104, 105] } :=
  ⟨by decide,
   C2_get_existing_file [] ["hello.txt"] [(["hello.txt"], [104, 105])]
     [104, 105] ⟨"GET", "/hello.txt"⟩ (by decide) (by decide) (by decide)
     (by decide) (by decide) (by decide)⟩

/-- C3: a GET request whose URL path resolves to no file under the
serving root is answered with status 404 and the simple error body. -/
theorem C3_get_missing_file (root : List String) (fs : FileSystem)
    (req : HttpRequest)
    (hmiss : FileSystem.lookup fs (translate_path root req.path) = none) :
    MyHttpRequestHandler.do_GET root fs req =
      { status := 404, contentType := "text/html", body := error404Body } := by
  unfold MyHttpRequestHandler.do_GET SimpleHTTPRequestHandler.do_GET
  rw [hmiss]

/-- Witness for C3: `GET /does-not-exist.txt` against an empty serving
root answers 404 (the spec's end-to-end scenario). -/
theorem C3_get_missing_file_witness :
    FileSystem.lookup ([] : FileSystem)
        (translate_path [] (HttpRequest.path ⟨"GET", "/does-not-exist.txt"⟩)) =
        none ∧
      MyHttpRequestHandler.do_GET [] [] ⟨"GET", "/does-not-exist.txt"⟩ =
        { status := 404, contentType := "text/html", body := error404Body } :=
  ⟨by decide,
   C3_get_missing_file [] [] ⟨"GET", "/does-not-exist.txt"⟩ (by decide)⟩

/-- C4: whenever a GET request is answered with status 200, its body is
the contents of a file whose path lies under the serving root — the
root extended by components none of which is `..` — so no response ever
carries the contents of a file outside the root; any other request is
answered with an error status. -/
theorem C4_no_escape (root : List String) (fs : FileSystem)
    (req : HttpRequest)
    (h200 : (MyHttpRequestHandler.do_GET root fs req).status = 200) :
    ∃ ws, ".." ∉ ws ∧
      FileSystem.lookup fs (root ++ ws) =
        some (MyHttpRequestHandler.do_GET root fs req).body := by
  have hG : MyHttpRequestHandler.do_GET root fs req =
      match FileSystem.lookup fs (translate_path root req.path) with
      | some contents =>
          { status := 200,
            contentType := guess_type ((translate_path root req.path).getLastD ""),
            body := contents }
      | none =>
          { status := 404, contentType := "text/html", body := error404Body } :=
    rfl
  cases hl : FileSystem.lookup fs (translate_path root req.path) with
  | none =>
      rw [hG, hl] at h200
      simp at h200
  | some contents =>
      refine ⟨(normpathComps (pathWords req.path)).filter
          (fun w => !(w.toList.contains '/' || w = "." || w = "..")), ?_, ?_⟩
      · intro hmem
        have hpred := List.of_mem_filter hmem
        simp at hpred
      · show FileSystem.lookup fs (translate_path root req.path) = _
        rw [hl, hG, hl]

/-- Witness for C4 at a traversal request: the serving root is `srv`,
the request `GET /../hello.txt` is served with status 200, and its body
is the contents of a file under `srv` — not of the out-of-root file
`secret`. -/
theorem C4_no_escape_witness :
    (MyHttpRequestHandler.do_GET ["srv"]
          [(["srv", "hello.txt"], [104, 105]), (["secret"], [7])]
          ⟨"GET", "/../hello.txt"⟩).status = 200 ∧
      ∃ ws, ".." ∉ ws ∧
        FileSystem.lookup
            [(["srv", "hello.txt"], [104, 105]), (["secret"], [7])]
            (["srv"] ++ ws) =
          some (MyHttpRequestHandler.do_GET ["srv"]
              [(["srv", "hello.txt"], [104, 105]), (["secret"], [7])]
              ⟨"GET", "/../hello.txt"⟩).body :=
  ⟨by decide,
   C4_no_escape ["srv"] [(["srv", "hello.txt"], [104, 105]), (["secret"], [7])]
     ⟨"GET", "/../hello.txt"⟩ (by decide)⟩
